import Mathlib

/-!
# Verification of the e-commerce order system (backend-v2)

Shallow embedding of `app/services/order_service.py`,
`app/api/routes/orders.py`, `app/background_jobs.py`, the order/user
models and the timezone utilities, together with proofs settling the
frozen claims about the natural-language specification.

Conventions of the embedding:
* Timestamps are integers, counting seconds on the IST (Asia/Kolkata)
  wall clock.  The database (SQLite, `DateTime` columns) stores naive
  datetimes: the tz-aware IST value produced by `get_ist_now` loses its
  offset on write and is read back naive, so a stored `created_at` is
  the IST wall-clock reading of the creation instant.  An *instant* is
  likewise represented by its IST wall-clock seconds.
* `utils/timezone.py::to_ist` attaches UTC to a naive datetime and
  converts to IST; on our coordinates the resulting instant is the
  naive reading plus the fixed IST offset of 19800 seconds (Asia/Kolkata
  is UTC+5:30 with no DST in the modern era).
* Money (`Decimal`, exact in the source's arithmetic) is `ℚ`.
* A SQLAlchemy session/table is a `List Order`; `query(...).first()` is
  `List.find?`, in-place mutation of a row object is a map over the list
  guarded by the row id, `db.refresh` is a fresh `find?` by id.
* Python exceptions (`HTTPException`, `ValueError`, `PermissionError`,
  `KeyError`, `NameError`) become an error type returned in `Except`.
-/

/-- `app/models/order.py::OrderStatus`. -/
inductive OrderStatus
  | pending
  | confirmed
  | processing
  | shipped
  | delivered
  | cancelled
  | refunded
  deriving DecidableEq, Repr

/-- The string value of each `OrderStatus` member (a `str` enum). -/
def OrderStatus.value : OrderStatus → String
  | .pending => "pending"
  | .confirmed => "confirmed"
  | .processing => "processing"
  | .shipped => "shipped"
  | .delivered => "delivered"
  | .cancelled => "cancelled"
  | .refunded => "refunded"

/-- `OrderStatus(s)` construction from a string: `some` member on a valid
literal, `none` standing for the `ValueError` raised otherwise. -/
def OrderStatus.fromString (s : String) : Option OrderStatus :=
  if s = "pending" then some .pending
  else if s = "confirmed" then some .confirmed
  else if s = "processing" then some .processing
  else if s = "shipped" then some .shipped
  else if s = "delivered" then some .delivered
  else if s = "cancelled" then some .cancelled
  else if s = "refunded" then some .refunded
  else none

/-- `app/models/user.py::UserRole`. -/
inductive UserRole
  | admin
  | vendor
  | customer
  deriving DecidableEq, Repr

/-- The string value of each `UserRole` member (a `str` enum, so
`user.role == 'customer'` compares against this value). -/
def UserRole.value : UserRole → String
  | .admin => "admin"
  | .vendor => "vendor"
  | .customer => "customer"

/-- The rows of `app/models/user.py::User` that the order paths read. -/
structure UserRec where
  id : Nat
  role : UserRole
  deriving DecidableEq, Repr

/-- `app/models/order.py::OrderItem` (persisted columns used here). -/
structure OrderItem where
  product_name : String
  product_sku : Option String
  quantity : Nat
  unit_price : ℚ
  total_price : ℚ
  product_description : Option String
  deriving DecidableEq, Repr

/-- `app/models/order.py::Order` (persisted columns used here; `items`
is the owned collection of line items). -/
structure Order where
  id : Nat
  user_id : Nat
  customer_name : String
  customer_email : String
  customer_phone : Option String
  shipping_address : String
  status : OrderStatus
  total_amount : ℚ
  notes : Option String
  tracking_number : Option String
  created_at : Int
  updated_at : Int
  items : List OrderItem
  deriving DecidableEq, Repr

/-- The orders table. -/
def Store := List Order

instance : DecidableEq Store := inferInstanceAs (DecidableEq (List Order))

instance : Membership Order Store := inferInstanceAs (Membership Order (List Order))

/-- `db.query(Order).filter(Order.id == oid).first()`. -/
def findOrder (db : Store) (oid : Nat) : Option Order :=
  List.find? (fun o => o.id = oid) db

/-- In-place mutation of the row object with id `oid` (exact for stores
whose ids are unique, which every theorem below assumes where needed). -/
def applyAt (db : Store) (oid : Nat) (f : Order → Order) : Store :=
  List.map (fun o => if o.id = oid then f o else o) db

/-- The ids column of a store. -/
def storeIds (db : Store) : List Nat := List.map Order.id db

/-- Python exceptions crossing the embedded function boundaries. -/
inductive PyErr
  | http (code : Nat) (detail : String)
  | valueError (msg : String)
  | permissionError (msg : String)
  | keyError
  | nameError (name : String)
  deriving DecidableEq, Repr

/-- Python whitespace test for `str.strip` (the characters it strips). -/
def pyIsSpace (c : Char) : Bool :=
  c = ' ' ∨ c = '\t' ∨ c = '\n' ∨ c = '\r' ∨ c = '\x0b' ∨ c = '\x0c'

/-- `str.strip()` on the underlying character list: drop leading and
trailing whitespace. -/
def pyStripList (l : List Char) : List Char :=
  ((l.dropWhile pyIsSpace).reverse.dropWhile pyIsSpace).reverse

/-- `str.strip()`. -/
def pyStrip (s : String) : String := ⟨pyStripList s.data⟩

/-- `order.notes or ''`. -/
def notesOrEmpty (n : Option String) : String := n.getD ""

/-- `app/utils/timezone.py::IST` offset: Asia/Kolkata is UTC+5:30. -/
def istOffsetSeconds : Int := 19800

/-- `app/utils/timezone.py::to_ist` applied to a naive timestamp: the
naive value is assumed UTC and converted to IST, so the represented
instant (in IST wall-clock seconds) is the naive reading plus the
offset. -/
def to_ist_naive (naive : Int) : Int := naive + istOffsetSeconds

/-- `OrderService._is_valid_status_transition`: the legal transition
graph; `cancelled` and `refunded` map to the empty list. -/
def is_valid_status_transition (current new_status : OrderStatus) : Bool :=
  let targets : List OrderStatus :=
    match current with
    | .pending => [.processing, .confirmed, .cancelled]
    | .confirmed => [.processing, .cancelled]
    | .processing => [.shipped, .cancelled]
    | .shipped => [.delivered]
    | .delivered => [.refunded]
    | .cancelled => []
    | .refunded => []
  targets.contains new_status

/-- `OrderService.get_order_by_id`: query filtered by id, plus the
owner filter for customers; when the filtered query is empty and the
caller is a customer, an unfiltered existence probe turns an existing
foreign order into an HTTP 403. -/
def get_order_by_id (db : Store) (oid : Nat) (user : UserRec) :
    Except PyErr (Option Order) :=
  let result :=
    if user.role = UserRole.customer then
      List.find? (fun o => decide (o.id = oid ∧ o.user_id = user.id)) db
    else
      findOrder db oid
  match result with
  | some o => .ok (some o)
  | none =>
    if user.role = UserRole.customer ∧ (findOrder db oid).isSome then
      .error (.http 403 "Access denied")
    else
      .ok none

/-- The mutation performed by `update_order_status` once allowed:
set the new status, append `\n[<new_status>] <notes>` to the notes and
strip (only when `notes` is truthy), and let the commit refresh
`updated_at`. -/
def transitionCommit (order : Order) (new_status : OrderStatus)
    (notes : Option String) (now : Int) : Order :=
  let withStatus := { order with status := new_status }
  let mutated :=
    match notes with
    | some n =>
      if n ≠ "" then
        { withStatus with notes := some (pyStrip
            (notesOrEmpty withStatus.notes ++ "\n[" ++
              new_status.value ++ "] " ++ n)) }
      else withStatus
    | none => withStatus
  { mutated with updated_at := now }

/-- `OrderService.update_order_status`: load through
`get_order_by_id`, run the role/ownership permission checks unless
`bypass_permission_check`, then the structural transition check, then
mutate status, append tagged notes when given, and commit (which also
refreshes `updated_at`). -/
def update_order_status (db : Store) (oid : Nat) (new_status : OrderStatus)
    (notes : Option String) (current_user : UserRec)
    (bypass_permission_check : Bool) (now : Int) :
    Except PyErr (Store × Order) :=
  match get_order_by_id db oid current_user with
  | .error e => .error e
  | .ok none => .error (.http 404 "Order not found")
  | .ok (some order) =>
    if ¬ bypass_permission_check then
      if current_user.role = UserRole.customer then
        if order.user_id ≠ current_user.id then
          .error (.http 403 "You can only update your own orders")
        else if ¬ (order.status = OrderStatus.pending ∧
                   new_status = OrderStatus.processing) then
          .error (.http 403
            "Customers can only auto-update pending orders to processing")
        else
          update_order_status.finish db oid new_status notes order now
      else if ¬ (current_user.role = UserRole.vendor ∨
                 current_user.role = UserRole.admin) then
        .error (.http 403 "Only vendors and admins can update order status")
      else
        update_order_status.finish db oid new_status notes order now
    else
      update_order_status.finish db oid new_status notes order now
where
  /-- The tail of `update_order_status` from the transition-validity
  check onward. -/
  finish (db : Store) (oid : Nat) (new_status : OrderStatus)
      (notes : Option String) (order : Order) (now : Int) :
      Except PyErr (Store × Order) :=
    if ¬ is_valid_status_transition order.status new_status then
      .error (.http 400
        ("Invalid status transition from " ++ order.status.value ++
          " to " ++ new_status.value))
    else
      let committed := transitionCommit order new_status notes now
      .ok (applyAt db oid (fun _ => committed), committed)

/-- `OrderService.cancel_order`: direct unfiltered lookup, the
cannot-cancel guard (`DELIVERED`/`CANCELLED` only), role checks with the
customer window computed as `get_ist_now() - to_ist(order.created_at)`,
then status `CANCELLED` with an appended note, committed. -/
def cancel_order (db : Store) (oid : Nat) (user : UserRec) (now : Int) :
    Except PyErr (Store × Order) :=
  match findOrder db oid with
  | none => .error (.valueError "Order not found")
  | some order =>
    if order.status = OrderStatus.delivered ∨
       order.status = OrderStatus.cancelled then
      .error (.valueError "Order cannot be cancelled")
    else if user.role.value = "customer" then
      if order.user_id ≠ user.id then
        .error (.permissionError "You can only cancel your own orders")
      else if order.status ≠ OrderStatus.pending then
        .error (.permissionError
          "You can only cancel orders that are in PENDING status")
      else
        let time_diff := now - to_ist_naive order.created_at
        if time_diff > 300 then
          .error (.permissionError
            "You can only cancel orders within 5 minutes of creation")
        else
          cancel_order.finish db oid user order now
    else if ¬ (user.role.value = "vendor" ∨ user.role.value = "admin") then
      .error (.permissionError
        "Only customers, vendors, and admins can cancel orders")
    else
      cancel_order.finish db oid user order now
where
  /-- The mutation-and-commit tail of `cancel_order`. -/
  finish (db : Store) (oid : Nat) (user : UserRec) (order : Order)
      (now : Int) : Except PyErr (Store × Order) :=
    let committed :=
      { order with
          status := OrderStatus.cancelled
          notes := some (pyStrip (notesOrEmpty order.notes ++
            "\n[CANCELLED] Order cancelled by " ++ user.role.value))
          updated_at := now }
    .ok (applyAt db oid (fun _ => committed), committed)

/-- `app/schemas/order.py::OrderItemCreate` (pydantic): validated
payload for one line item (`quantity ≥ 1`, `unit_price ≥ 0` are the
field constraints, carried as facts where needed). -/
structure OrderItemCreate where
  product_name : String
  product_sku : Option String
  quantity : Nat
  unit_price : ℚ
  product_description : Option String
  deriving DecidableEq, Repr

/-- `app/schemas/order.py::OrderCreate`. -/
structure OrderCreate where
  customer_name : String
  customer_email : String
  customer_phone : Option String
  shipping_address : String
  notes : Option String
  items : List OrderItemCreate
  deriving DecidableEq, Repr

/-- `app/schemas/order.py::OrderUpdate`: four optional fields; an outer
`none` is a field absent from the patch (pydantic `exclude_unset`), an
inner `Option` is the column's own nullability. -/
structure OrderUpdate where
  customer_name : Option String
  customer_phone : Option (Option String)
  shipping_address : Option String
  notes : Option (Option String)
  deriving DecidableEq, Repr

/-- The per-item body of `create_order`'s loop:
`item_total = item_data.unit_price * item_data.quantity`, stored as the
item's `total_price`. -/
def mkOrderItem (item_data : OrderItemCreate) : OrderItem :=
  { product_name := item_data.product_name
    product_sku := item_data.product_sku
    quantity := item_data.quantity
    unit_price := item_data.unit_price
    total_price := item_data.unit_price * (item_data.quantity : ℚ)
    product_description := item_data.product_description }

/-- `OrderService.create_order`: builds the order with status
`PENDING`, builds each item with `total_price = unit_price * quantity`,
accumulates `total_amount` from those line totals, and commits.  The
fresh row id is a parameter (the autoincrement outcome). -/
def create_order (db : Store) (order_data : OrderCreate) (user : UserRec)
    (newId : Nat) (now : Int) : Store × Order :=
  let items := order_data.items.map mkOrderItem
  let total_amount := (items.map OrderItem.total_price).sum
  let order : Order :=
    { id := newId
      user_id := user.id
      customer_name := order_data.customer_name
      customer_email := order_data.customer_email
      customer_phone := order_data.customer_phone
      shipping_address := order_data.shipping_address
      status := OrderStatus.pending
      total_amount := total_amount
      notes := order_data.notes
      tracking_number := none
      created_at := now
      updated_at := now
      items := items }
  (List.concat db order, order)

/-- `OrderService.update_order`: load through `get_order_by_id`, the
redundant ownership check, the customers-only-pending check, then
`setattr` for each field set in the patch and commit. -/
def update_order (db : Store) (oid : Nat) (order_data : OrderUpdate)
    (user : UserRec) (now : Int) : Except PyErr (Store × Order) :=
  match get_order_by_id db oid user with
  | .error e => .error e
  | .ok none => .error (.http 404 "Order not found")
  | .ok (some order) =>
    if user.role = UserRole.customer ∧ order.user_id ≠ user.id then
      .error (.http 403 "Access denied")
    else if user.role = UserRole.customer ∧
            order.status ≠ OrderStatus.pending then
      .error (.http 400 "Can only update pending orders")
    else
      let patched :=
        { order with
            customer_name := order_data.customer_name.getD order.customer_name
            customer_phone := order_data.customer_phone.getD order.customer_phone
            shipping_address :=
              order_data.shipping_address.getD order.shipping_address
            notes := order_data.notes.getD order.notes
            updated_at := now }
      .ok (applyAt db oid (fun _ => patched), patched)

/-- The JSON body of `PATCH /orders/{order_id}/status`
(`status_update: dict`): the value under the `"status"` key when
present, and the optional `"notes"` value. -/
structure StatusUpdatePayload where
  status : Option String
  notes : Option String
  deriving DecidableEq, Repr

/-- The `try` body of `app/api/routes/orders.py::update_order_status`.
`status_update["status"]` raises `KeyError` when absent;
`OrderStatus(...)` raises `ValueError` on an invalid literal; the next
statement, `db.query(Order)`, dereferences `Order`, a name the routes
module never imports (line 14 imports only `OrderStatus`), raising
`NameError` — so the code after it, including both `OrderService`
calls, is unreachable. -/
def routes_update_order_status_body (db : Store) (oid : Nat)
    (payload : StatusUpdatePayload) (current_user : UserRec) (now : Int) :
    Except PyErr (Store × Order) :=
  match payload.status with
  | none => .error PyErr.keyError
  | some s =>
    match OrderStatus.fromString s with
    | none =>
      .error (.valueError ("'" ++ s ++ "' is not a valid OrderStatus"))
    | some _new_status =>
      .error (.nameError "Order")

/-- `app/api/routes/orders.py::update_order_status` with its `except`
clauses: `ValueError → 400`, `PermissionError → 403`, any other
exception (`KeyError`, `NameError`, even `HTTPException`) → 500; the
store is returned alongside the HTTP status code. -/
def routes_update_order_status (db : Store) (oid : Nat)
    (payload : StatusUpdatePayload) (current_user : UserRec) (now : Int) :
    Nat × Store :=
  match routes_update_order_status_body db oid payload current_user now with
  | .ok (db', _) => (200, db')
  | .error (.valueError _) => (400, db)
  | .error (.permissionError _) => (403, db)
  | .error _ => (500, db)

/-- The per-order mutation of the background promotion passes:
`order.status = OrderStatus.PROCESSING; order.updated_at = now`. -/
def promoteOrder (now : Int) (o : Order) : Order :=
  { o with status := OrderStatus.processing, updated_at := now }

/-- The batch query of both background passes:
`status == PENDING and created_at <= cutoff`, yielding the candidate
row ids. -/
def pendingBatch (snap : Store) (cutoff : Int) : List Nat :=
  (snap.filter (fun o =>
    decide (o.status = OrderStatus.pending ∧ o.created_at ≤ cutoff))).map
    Order.id

/-- The shared `for order in pending_orders:` loop of
`BackgroundJobManager._process_pending_orders` and
`update_all_pending_orders_now`: per candidate, `db.refresh` (a fresh
read by id, an exception if the row vanished), silent skip when the
re-read status is no longer `PENDING`, the extra age re-check when
`check` demands one (the periodic pass), then the promotion; the
returned count is the number promoted. -/
def sweepLoop (check : Order → Bool) (now : Int) :
    List Nat → Store → Except Unit (Store × Nat)
  | [], db => .ok (db, 0)
  | oid :: rest, db =>
    match findOrder db oid with
    | none => .error ()
    | some o =>
      if o.status ≠ OrderStatus.pending then sweepLoop check now rest db
      else if ¬ check o then sweepLoop check now rest db
      else
        match sweepLoop check now rest (applyAt db oid (promoteOrder now)) with
        | .ok (db', n) => .ok (db', n + 1)
        | .error e => .error e

/-- `BackgroundJobManager._process_pending_orders`: batch query against
the state `snap` seen at query time, loop re-reading from the state
`cur` at mutation time; the per-candidate age re-check is
`age_minutes > 5` with the age computed from `IST.localize(created_at)`
(correctly, as the true age); any exception rolls the pass back and is
swallowed. -/
def process_pending_orders (snap cur : Store) (now : Int) : Store × Nat :=
  let cs := pendingBatch snap (now - 300)
  match sweepLoop (fun o => decide (now - o.created_at > 300)) now cs cur with
  | .ok (db, n) => (db, n)
  | .error _ => (cur, 0)

/-- `BackgroundJobManager.update_all_pending_orders_now` (the manual
trigger): batch query at `now1` (line 127's `datetime.now`), loop with
NO per-candidate age re-check, `updated_at` stamped with `now2`
(line 134's `datetime.now`); exceptions roll back and re-raise. -/
def update_all_pending_orders_now (snap cur : Store) (now1 now2 : Int) :
    Except Unit (Store × Nat) :=
  sweepLoop (fun _ => true) now2 (pendingBatch snap (now1 - 300)) cur

/-- Project the resulting order's status out of a service call. -/
def resultStatus (r : Except PyErr (Store × Order)) : Option OrderStatus :=
  match r with
  | .ok (_, o) => some o.status
  | .error _ => none

/-- Project the resulting order's notes out of a service call. -/
def resultNotes (r : Except PyErr (Store × Order)) : Option (Option String) :=
  match r with
  | .ok (_, o) => some o.notes
  | .error _ => none

/-- Whether a service call succeeded. -/
def resultOk (r : Except PyErr (Store × Order)) : Bool :=
  match r with
  | .ok _ => true
  | .error _ => false

/-- A concrete order row for evaluating the embedded operations. -/
def mkOrder (oid uid : Nat) (st : OrderStatus) (created : Int) : Order :=
  { id := oid
    user_id := uid
    customer_name := "Jane Doe"
    customer_email := "jane@example.com"
    customer_phone := none
    shipping_address := "1 Main St"
    status := st
    total_amount := 0
    notes := none
    tracking_number := none
    created_at := created
    updated_at := created
    items := [] }

/-- C1 (code bug): the terminal invariant fails on the code.  The
transition table marks `refunded` terminal (second conjunct), but
`cancel_order`'s cannot-cancel guard checks only `DELIVERED` and
`CANCELLED`, so an admin (or vendor) cancelling a *refunded* order
succeeds and moves its status to `cancelled` (first conjunct), a
transition out of a terminal state. -/
theorem C1_terminal_refunded_cancel_bug :
    resultStatus (cancel_order [mkOrder 1 7 OrderStatus.refunded 0] 1
        ⟨2, UserRole.admin⟩ 50) = some OrderStatus.cancelled ∧
    is_valid_status_transition OrderStatus.refunded OrderStatus.cancelled
      = false :=
  ⟨rfl, rfl⟩

/-- C3 (code bug): the customer cancellation window is not 300 seconds.
`cancel_order` computes `get_ist_now() - to_ist(order.created_at)`, and
`to_ist` assumes a naive timestamp is UTC while the store holds naive
IST wall-clock values, so the computed difference is the true age minus
the 19800-second IST offset.  A customer cancelling their own pending
order of age 301 seconds therefore SUCCEEDS (first conjunct), where the
claim demands the distinct window-expired denial; that denial actually
fires only once the age exceeds 20100 seconds (second conjunct, age
20101). -/
theorem C3_cancel_window_code_bug :
    resultStatus (cancel_order [mkOrder 1 7 OrderStatus.pending 1000000] 1
        ⟨7, UserRole.customer⟩ 1000301) = some OrderStatus.cancelled ∧
    cancel_order [mkOrder 1 7 OrderStatus.pending 1000000] 1
        ⟨7, UserRole.customer⟩ 1020101 =
      .error (.permissionError
        "You can only cancel orders within 5 minutes of creation") ∧
    ((1000301 : Int) - 1000000 > 300 ∧ ¬ ((1020101 : Int) - 1000000 ≤ 20100)) :=
  ⟨rfl, rfl, by decide⟩

/-- C2 (counterexample): not every invocation of the status endpoint
raises `NameError`/500 — a payload whose status value is an invalid
literal raises `ValueError` at `OrderStatus(...)`, before the `Order`
dereference, and the endpoint answers 400, not 500. -/
theorem C2_invalid_literal_gives_400 :
    routes_update_order_status [] 1 ⟨some "bogus", none⟩
        ⟨7, UserRole.customer⟩ 0 = (400, []) ∧
    routes_update_order_status_body [] 1 ⟨some "bogus", none⟩
        ⟨7, UserRole.customer⟩ 0 =
      .error (.valueError "'bogus' is not a valid OrderStatus") :=
  ⟨rfl, rfl⟩

/-- C4 (counterexample): the invalid-edge check is NOT decided before
the role checks.  A customer requesting the self-loop
`pending → pending` on their own order — an edge absent from the graph
(second conjunct) — is rejected by the role check with the 403
permission detail, not by the 400 invalid-transition response the claim
requires. -/
theorem C4_self_loop_denied_as_permission :
    update_order_status [mkOrder 1 7 OrderStatus.pending 0] 1
        OrderStatus.pending none ⟨7, UserRole.customer⟩ false 10 =
      .error (.http 403
        "Customers can only auto-update pending orders to processing") ∧
    is_valid_status_transition OrderStatus.pending OrderStatus.pending
      = false :=
  ⟨rfl, rfl⟩

/-- C5 (counterexample): the manual sweep's batch filter is
`created_at <= now - 300`, with no per-candidate age re-check, so a
pending order aged exactly 300 seconds — NOT "more than 5 minutes in
the past" (second conjunct) — is promoted and counted, where the claim
says it must be left untouched. -/
theorem C5_boundary_age_300_promoted :
    update_all_pending_orders_now [mkOrder 1 7 OrderStatus.pending 0]
        [mkOrder 1 7 OrderStatus.pending 0] 300 300 =
      .ok ([promoteOrder 300 (mkOrder 1 7 OrderStatus.pending 0)], 1) ∧
    ¬ ((300 : Int) - (mkOrder 1 7 OrderStatus.pending 0).created_at > 300) :=
  ⟨rfl, by decide⟩

/-- C8 (counterexample): notes are not append-only across every
notes-writing operation — `update_order` assigns the patch value over
the previous notes wholesale: patching notes `"new"` over previous
notes `"old"` leaves `"new"`, of which `"old"` is not a prefix. -/
theorem C8_update_order_overwrites_notes :
    resultNotes (update_order
        [{ mkOrder 1 7 OrderStatus.pending 0 with notes := some "old" }] 1
        ⟨none, none, none, some (some "new")⟩ ⟨3, UserRole.vendor⟩ 10) =
      some (some "new") ∧
    "old".data.isPrefixOf "new".data = false :=
  ⟨rfl, by decide⟩

/-- C2 (amended): the status endpoint never reaches a service call and
never mutates the store, for any caller and any payload; specifically
the handler raises `NameError` on the unimported name `Order` — mapped
to HTTP 500 by the catch-all — exactly on the payloads that survive
status parsing (a present, valid status literal), while a missing
status key yields 500 via `KeyError` and an invalid literal yields 400
via `ValueError`. -/
theorem C2_status_endpoint_never_mutates (db : Store) (oid : Nat)
    (payload : StatusUpdatePayload) (user : UserRec) (now : Int) :
    (routes_update_order_status db oid payload user now).2 = db ∧
    (∀ s, payload.status = some s → (OrderStatus.fromString s).isSome = true →
      routes_update_order_status_body db oid payload user now =
        .error (.nameError "Order") ∧
      (routes_update_order_status db oid payload user now).1 = 500) ∧
    (payload.status = none →
      routes_update_order_status_body db oid payload user now =
        .error PyErr.keyError ∧
      (routes_update_order_status db oid payload user now).1 = 500) := by
  obtain ⟨st, nt⟩ := payload
  cases st with
  | none =>
    refine ⟨rfl, ?_, fun _ => ⟨rfl, rfl⟩⟩
    intro s hs _
    cases hs
  | some s =>
    cases h : OrderStatus.fromString s with
    | none =>
      refine ⟨?_, ?_, fun hn => by cases hn⟩
      · simp [routes_update_order_status, routes_update_order_status_body, h]
      · intro s2 hs2 hval
        injection hs2 with he
        subst he
        rw [h] at hval
        cases hval
    | some v =>
      refine ⟨?_, ?_, fun hn => by cases hn⟩
      · simp [routes_update_order_status, routes_update_order_status_body, h]
      · intro s2 hs2 _
        injection hs2 with he
        subst he
        simp [routes_update_order_status, routes_update_order_status_body, h]

/-- Witness for `C2_status_endpoint_never_mutates` at the valid literal
`"pending"` on an empty store. -/
theorem C2_status_endpoint_never_mutates_witness :
    routes_update_order_status_body [] 1 ⟨some "pending", none⟩
        ⟨7, UserRole.customer⟩ 0 = .error (.nameError "Order") ∧
    (routes_update_order_status [] 1 ⟨some "pending", none⟩
        ⟨7, UserRole.customer⟩ 0).1 = 500 :=
  (C2_status_endpoint_never_mutates [] 1 ⟨some "pending", none⟩
      ⟨7, UserRole.customer⟩ 0).2.1 "pending" rfl rfl

/-- On an absent edge, the tail of `update_order_status` fails with the
invalid-transition 400. -/
theorem usos_finish_invalid (db : Store) (oid : Nat) (ns : OrderStatus)
    (notes : Option String) (o : Order) (now : Int)
    (hinv : is_valid_status_transition o.status ns = false) :
    update_order_status.finish db oid ns notes o now =
      .error (.http 400 ("Invalid status transition from " ++
        o.status.value ++ " to " ++ ns.value)) := by
  unfold update_order_status.finish
  rw [hinv]
  simp

/-- C4 (amended): the permission checks are evaluated before the edge
check, so an absent edge is not *always* reported as Invalid; what
holds is: (1) a request over an absent edge — in particular any
self-loop — never succeeds, for any role, ownership or bypass flag, and
is never silently ignored; and (2) whenever the permission layer is
passed trivially (vendor, admin, or the bypass flag), the absent edge
is reported as the 400 invalid-transition validation failure carrying
the invalid-transition reason. -/
theorem C4_invalid_edge_rejected (db : Store) (oid : Nat)
    (ns : OrderStatus) (notes : Option String) (user : UserRec)
    (bypass : Bool) (now : Int) (o : Order)
    (hfound : get_order_by_id db oid user = .ok (some o))
    (hinv : is_valid_status_transition o.status ns = false) :
    resultOk (update_order_status db oid ns notes user bypass now) = false ∧
    ((bypass = true ∨ user.role = UserRole.vendor ∨
        user.role = UserRole.admin) →
      update_order_status db oid ns notes user bypass now =
        .error (.http 400 ("Invalid status transition from " ++
          o.status.value ++ " to " ++ ns.value))) := by
  have hfin := usos_finish_invalid db oid ns notes o now hinv
  constructor
  · simp only [update_order_status, hfound]
    repeat' split
    all_goals simp only [hfin, resultOk]
  · intro hrole
    simp only [update_order_status, hfound]
    rcases hrole with hb | hv | hr
    · subst hb; simp [hfin]
    · cases bypass <;> simp [hv, hfin]
    · cases bypass <;> simp [hr, hfin]

/-- Witness for `C4_invalid_edge_rejected`: a vendor requesting the
self-loop `shipped → shipped` gets the 400 invalid-transition error. -/
theorem C4_invalid_edge_rejected_witness :
    resultOk (update_order_status [mkOrder 1 7 OrderStatus.shipped 0] 1
        OrderStatus.shipped none ⟨3, UserRole.vendor⟩ false 5) = false ∧
    update_order_status [mkOrder 1 7 OrderStatus.shipped 0] 1
        OrderStatus.shipped none ⟨3, UserRole.vendor⟩ false 5 =
      .error (.http 400 ("Invalid status transition from " ++
        (mkOrder 1 7 OrderStatus.shipped 0).status.value ++ " to " ++
        OrderStatus.shipped.value)) :=
  have h := C4_invalid_edge_rejected [mkOrder 1 7 OrderStatus.shipped 0] 1
    OrderStatus.shipped none ⟨3, UserRole.vendor⟩ false 5
    (mkOrder 1 7 OrderStatus.shipped 0) rfl rfl
  ⟨h.1, h.2 (Or.inr (Or.inl rfl))⟩

/-- The owner-filtered customer query, on a store with unique ids,
composes from the id lookup and an ownership test. -/
theorem find_owned (db : Store) (oid uid : Nat)
    (hnd : (storeIds db).Nodup) :
    List.find? (fun o => decide (o.id = oid ∧ o.user_id = uid)) db
      = (findOrder db oid).bind
          (fun o => if o.user_id = uid then some o else none) := by
  induction db with
  | nil => rfl
  | cons a tl ih =>
    have hnd' : (storeIds tl).Nodup :=
      (List.nodup_cons.mp (by simpa [storeIds] using hnd)).2
    have hnotin : a.id ∉ storeIds tl :=
      (List.nodup_cons.mp (by simpa [storeIds] using hnd)).1
    by_cases hid : a.id = oid
    · have hfind : findOrder (a :: tl) oid = some a := by
        simp [findOrder, List.find?_cons_of_pos, hid]
      rw [hfind]
      by_cases hown : a.user_id = uid
      · simp [List.find?_cons_of_pos, hid, hown]
      · have hnone :
            List.find? (fun o => decide (o.id = oid ∧ o.user_id = uid)) tl
              = none := by
          rw [List.find?_eq_none]
          intro x hx
          have hxid : x.id ≠ oid := by
            intro he
            apply hnotin
            rw [hid, ← he]
            exact List.mem_map_of_mem Order.id hx
          simp [hxid]
        have hanot :
            ¬ ((fun o => decide (o.id = oid ∧ o.user_id = uid)) a = true) := by
          simp [hown]
        have hstep := List.find?_cons_of_neg
          (p := fun o => decide (o.id = oid ∧ o.user_id = uid)) (a := a)
          tl hanot
        rw [hstep, hnone]
        simp [hown]
    · have h1 :
          List.find? (fun o => decide (o.id = oid ∧ o.user_id = uid))
            (a :: tl)
            = List.find? (fun o => decide (o.id = oid ∧ o.user_id = uid))
                tl := by
        simp [List.find?_cons_of_neg, hid]
      have h2 : findOrder (a :: tl) oid = findOrder tl oid := by
        simp [findOrder, List.find?_cons_of_neg, hid]
      rw [h1, h2, ih hnd']

/-- C9: `get_order_by_id` access behaviour on a store with unique ids:
a vendor or admin requester receives exactly the unfiltered lookup (the
order whenever it exists); for a customer requester, the order is
returned iff the customer owns it, an existing order owned by someone
else raises the 403 Access-denied failure (distinguishable from
not-found), and an absent id returns `none` (not-found). -/
theorem C9_get_order_access (db : Store) (oid : Nat) (user : UserRec)
    (hnd : (storeIds db).Nodup) :
    (user.role ≠ UserRole.customer →
      get_order_by_id db oid user = .ok (findOrder db oid)) ∧
    (user.role = UserRole.customer →
      (∀ o, findOrder db oid = some o →
        (o.user_id = user.id → get_order_by_id db oid user = .ok (some o)) ∧
        (o.user_id ≠ user.id →
          get_order_by_id db oid user = .error (.http 403 "Access denied"))) ∧
      (findOrder db oid = none → get_order_by_id db oid user = .ok none)) := by
  constructor
  · intro hrole
    unfold get_order_by_id
    rw [if_neg hrole]
    cases h : findOrder db oid with
    | none => simp [hrole]
    | some o => simp
  · intro hrole
    constructor
    · intro o hfind
      constructor
      · intro hown
        unfold get_order_by_id
        rw [if_pos hrole, find_owned db oid user.id hnd, hfind]
        simp [hown]
      · intro hown
        unfold get_order_by_id
        rw [if_pos hrole, find_owned db oid user.id hnd, hfind]
        simp [hown, hrole, hfind]
    · intro hnone
      unfold get_order_by_id
      rw [if_pos hrole, find_owned db oid user.id hnd, hnone]
      simp [hnone, hrole]

/-- Witness for `C9_get_order_access`: on a two-order store, the owner
customer gets their order, a foreign customer gets the 403, a stranger
id gets not-found, and a vendor gets the order. -/
theorem C9_get_order_access_witness :
    get_order_by_id [mkOrder 1 7 OrderStatus.pending 0] 1
        ⟨7, UserRole.customer⟩ = .ok (some (mkOrder 1 7 OrderStatus.pending 0)) ∧
    get_order_by_id [mkOrder 1 7 OrderStatus.pending 0] 1
        ⟨8, UserRole.customer⟩ = .error (.http 403 "Access denied") ∧
    get_order_by_id [mkOrder 1 7 OrderStatus.pending 0] 2
        ⟨8, UserRole.customer⟩ = .ok none ∧
    get_order_by_id [mkOrder 1 7 OrderStatus.pending 0] 1
        ⟨3, UserRole.vendor⟩ = .ok (findOrder [mkOrder 1 7 OrderStatus.pending 0] 1) :=
  have h7 := C9_get_order_access [mkOrder 1 7 OrderStatus.pending 0] 1
    ⟨7, UserRole.customer⟩ (by decide)
  have h8 := C9_get_order_access [mkOrder 1 7 OrderStatus.pending 0] 1
    ⟨8, UserRole.customer⟩ (by decide)
  have h2 := C9_get_order_access [mkOrder 1 7 OrderStatus.pending 0] 2
    ⟨8, UserRole.customer⟩ (by decide)
  have hv := C9_get_order_access [mkOrder 1 7 OrderStatus.pending 0] 1
    ⟨3, UserRole.vendor⟩ (by decide)
  ⟨((h7.2 rfl).1 (mkOrder 1 7 OrderStatus.pending 0) rfl).1 rfl,
   ((h8.2 rfl).1 (mkOrder 1 7 OrderStatus.pending 0) rfl).2 (by decide),
   (h2.2 rfl).2 rfl,
   hv.1 (by decide)⟩

/-- C10: the field-update frame.  For every requester role and every
patch, a successful `update_order` changes none of status,
total_amount, user_id, items (nor customer_email, tracking_number,
created_at, which the `OrderUpdate` schema also omits); each of the
four admissible fields is written exactly when set in the patch and
keeps its prior value when unset; and the store change is confined to
the row with the requested id. -/
theorem C10_update_order_frame (db : Store) (oid : Nat)
    (patch : OrderUpdate) (user : UserRec) (now : Int)
    (db' : Store) (o' o : Order)
    (hfound : get_order_by_id db oid user = .ok (some o))
    (hok : update_order db oid patch user now = .ok (db', o')) :
    o'.status = o.status ∧ o'.total_amount = o.total_amount ∧
    o'.user_id = o.user_id ∧ o'.items = o.items ∧
    o'.customer_email = o.customer_email ∧
    o'.tracking_number = o.tracking_number ∧
    o'.created_at = o.created_at ∧
    (patch.customer_name = none → o'.customer_name = o.customer_name) ∧
    (∀ v, patch.customer_name = some v → o'.customer_name = v) ∧
    (patch.customer_phone = none → o'.customer_phone = o.customer_phone) ∧
    (∀ v, patch.customer_phone = some v → o'.customer_phone = v) ∧
    (patch.shipping_address = none →
      o'.shipping_address = o.shipping_address) ∧
    (∀ v, patch.shipping_address = some v → o'.shipping_address = v) ∧
    (patch.notes = none → o'.notes = o.notes) ∧
    (∀ v, patch.notes = some v → o'.notes = v) ∧
    db' = applyAt db oid (fun _ => o') := by
  simp only [update_order, hfound] at hok
  split at hok
  · simp at hok
  · split at hok
    · simp at hok
    · have h1 := congrArg Prod.fst (Except.ok.inj hok)
      have h2 := congrArg Prod.snd (Except.ok.inj hok)
      simp only at h1 h2
      subst h1
      subst h2
      refine ⟨rfl, rfl, rfl, rfl, rfl, rfl, rfl,
        ?_, ?_, ?_, ?_, ?_, ?_, ?_, ?_, rfl⟩
      all_goals first
        | (intro h; rw [h]; rfl)
        | (intro v hv; rw [hv]; rfl)

/-- Witness for `C10_update_order_frame`: a vendor patches only the
shipping address of a pending order; status, total, owner, items and
the three unset fields keep their prior values. -/
theorem C10_update_order_frame_witness :
    (update_order [mkOrder 1 7 OrderStatus.pending 0] 1
        ⟨none, none, some "2 Oak Ave", none⟩ ⟨3, UserRole.vendor⟩ 9).isOk
      = true ∧
    ((update_order [mkOrder 1 7 OrderStatus.pending 0] 1
        ⟨none, none, some "2 Oak Ave", none⟩ ⟨3, UserRole.vendor⟩ 9).toOption.map
      (fun r => (r.2.status, r.2.total_amount, r.2.user_id, r.2.items,
        r.2.customer_name, r.2.shipping_address, r.2.notes)))
      = some (OrderStatus.pending, 0, 7, [], "Jane Doe", "2 Oak Ave", none) := by
  have h := C10_update_order_frame [mkOrder 1 7 OrderStatus.pending 0] 1
    ⟨none, none, some "2 Oak Ave", none⟩ ⟨3, UserRole.vendor⟩ 9 _ _
    (mkOrder 1 7 OrderStatus.pending 0) rfl rfl
  exact ⟨rfl, rfl⟩

/-- The monetary invariant of §3: the order total equals the sum of its
items' `quantity × unit_price`, and each stored line total equals its
own `quantity × unit_price`. -/
def totalInvariant (o : Order) : Prop :=
  o.total_amount
      = (o.items.map (fun i => (i.quantity : ℚ) * i.unit_price)).sum ∧
    ∀ i ∈ o.items, i.total_price = (i.quantity : ℚ) * i.unit_price

/-- A found order is a member of the store. -/
theorem mem_of_get_order_ok (db : Store) (oid : Nat) (user : UserRec)
    (o : Order) (h : get_order_by_id db oid user = .ok (some o)) :
    o ∈ db := by
  unfold get_order_by_id at h
  by_cases hrole : user.role = UserRole.customer
  · rw [if_pos hrole] at h
    cases hf : List.find? (fun o => decide (o.id = oid ∧ o.user_id = user.id)) db with
    | some x =>
      rw [hf] at h
      injection h with h1
      injection h1 with h2
      exact h2 ▸ List.mem_of_find?_eq_some hf
    | none =>
      rw [hf] at h
      split at h <;> simp_all
  · rw [if_neg hrole] at h
    cases hf : findOrder db oid with
    | some x =>
      rw [hf] at h
      injection h with h1
      injection h1 with h2
      exact h2 ▸ List.mem_of_find?_eq_some hf
    | none =>
      rw [hf] at h
      split at h <;> simp_all

/-- Membership after an in-place row mutation: every row of the new
store is either the mutated row or an untouched old row. -/
theorem applyAt_const_mem (db : Store) (oid : Nat) (o' x : Order)
    (hx : x ∈ applyAt db oid (fun _ => o')) : x = o' ∨ x ∈ db := by
  unfold applyAt at hx
  rcases List.mem_map.mp hx with ⟨y, hy, he⟩
  by_cases h : y.id = oid
  · rw [if_pos h] at he
    exact Or.inl he.symm
  · rw [if_neg h] at he
    exact Or.inr (he ▸ hy)

/-- `transitionCommit` leaves the item list untouched. -/
theorem transitionCommit_items (o : Order) (ns : OrderStatus)
    (notes : Option String) (now : Int) :
    (transitionCommit o ns notes now).items = o.items := by
  unfold transitionCommit
  cases notes with
  | none => rfl
  | some n => by_cases h : n = "" <;> simp [h]

/-- `transitionCommit` leaves the total untouched. -/
theorem transitionCommit_total (o : Order) (ns : OrderStatus)
    (notes : Option String) (now : Int) :
    (transitionCommit o ns notes now).total_amount = o.total_amount := by
  unfold transitionCommit
  cases notes with
  | none => rfl
  | some n => by_cases h : n = "" <;> simp [h]

/-- Success shape of `update_order_status`: the result is the committed
transition of the loaded order, written back at its id. -/
theorem usos_ok_shape (db : Store) (oid : Nat) (ns : OrderStatus)
    (notes : Option String) (user : UserRec) (bypass : Bool) (now : Int)
    (db' : Store) (o' : Order)
    (h : update_order_status db oid ns notes user bypass now = .ok (db', o')) :
    ∃ o, get_order_by_id db oid user = .ok (some o) ∧
      is_valid_status_transition o.status ns = true ∧
      o' = transitionCommit o ns notes now ∧
      db' = applyAt db oid (fun _ => o') := by
  cases hg : get_order_by_id db oid user with
  | error e =>
    simp only [update_order_status, hg] at h
    exact Except.noConfusion h
  | ok found =>
    cases found with
    | none =>
      simp only [update_order_status, hg] at h
      exact Except.noConfusion h
    | some o =>
      simp only [update_order_status, hg] at h
      refine ⟨o, rfl, ?_⟩
      have hfin :
          update_order_status.finish db oid ns notes o now = .ok (db', o') → 
            is_valid_status_transition o.status ns = true ∧
            o' = transitionCommit o ns notes now ∧
            db' = applyAt db oid (fun _ => o') := by
        intro hf
        unfold update_order_status.finish at hf
        split at hf
        · simp_all
        · have h1 := congrArg Prod.fst (Except.ok.inj hf)
          have h2 := congrArg Prod.snd (Except.ok.inj hf)
          simp only at h1 h2
          subst h2
          constructor
          · by_contra hv
            simp [Bool.not_eq_true] at hv
            simp_all
          · exact ⟨rfl, h1.symm⟩
      repeat' split at h
      all_goals first
        | exact hfin h
        | simp_all

/-- Success shape of `cancel_order`: the result is the loaded order
moved to `cancelled` with the audit note appended, written back at its
id. -/
theorem cancel_ok_shape (db : Store) (oid : Nat) (user : UserRec)
    (now : Int) (db' : Store) (o' : Order)
    (h : cancel_order db oid user now = .ok (db', o')) :
    ∃ o, findOrder db oid = some o ∧
      o' = { o with
               status := OrderStatus.cancelled
               notes := some (pyStrip (notesOrEmpty o.notes ++
                 "\n[CANCELLED] Order cancelled by " ++ user.role.value))
               updated_at := now } ∧
      db' = applyAt db oid (fun _ => o') := by
  cases hg : findOrder db oid with
  | none =>
    simp only [cancel_order, hg] at h
    exact Except.noConfusion h
  | some o =>
    simp only [cancel_order, hg] at h
    refine ⟨o, rfl, ?_⟩
    have hfin : cancel_order.finish db oid user o now = .ok (db', o') →
        o' = { o with
                 status := OrderStatus.cancelled
                 notes := some (pyStrip (notesOrEmpty o.notes ++
                   "\n[CANCELLED] Order cancelled by " ++ user.role.value))
                 updated_at := now } ∧
        db' = applyAt db oid (fun _ => o') := by
      intro hf
      unfold cancel_order.finish at hf
      have h1 := congrArg Prod.fst (Except.ok.inj hf)
      have h2 := congrArg Prod.snd (Except.ok.inj hf)
      simp only at h1 h2
      subst h2
      exact ⟨rfl, h1.symm⟩
    repeat' split at h
    all_goals first
      | exact hfin h
      | simp_all

/-- Success shape of `update_order`: the result is the loaded order
with the patched fields, written back at its id. -/
theorem update_order_ok_shape (db : Store) (oid : Nat)
    (patch : OrderUpdate) (user : UserRec) (now : Int)
    (db' : Store) (o' : Order)
    (h : update_order db oid patch user now = .ok (db', o')) :
    ∃ o, get_order_by_id db oid user = .ok (some o) ∧
      o'.items = o.items ∧ o'.total_amount = o.total_amount ∧
      db' = applyAt db oid (fun _ => o') := by
  cases hg : get_order_by_id db oid user with
  | error e =>
    simp only [update_order, hg] at h
    exact Except.noConfusion h
  | ok found =>
    cases found with
    | none =>
      simp only [update_order, hg] at h
      exact Except.noConfusion h
    | some o =>
      simp only [update_order, hg] at h
      refine ⟨o, rfl, ?_⟩
      split at h
      · simp_all
      · split at h
        · simp_all
        · have h1 := congrArg Prod.fst (Except.ok.inj h)
          have h2 := congrArg Prod.snd (Except.ok.inj h)
          simp only at h1 h2
          subst h2
          exact ⟨rfl, rfl, h1.symm⟩

/-- The invariant transfers along operations that keep items and total. -/
theorem totalInvariant_congr (o o' : Order) (hi : o'.items = o.items)
    (ht : o'.total_amount = o.total_amount) (h : totalInvariant o) :
    totalInvariant o' := by
  obtain ⟨h1, h2⟩ := h
  constructor
  · rw [hi, ht]; exact h1
  · rw [hi]; exact h2

/-- C7: total-amount correctness.  A created order's persisted total
equals the sum over its items of `quantity × unit_price`, each stored
line total equals its own `quantity × unit_price`, and the items (hence
the total) are computed server-side from the submitted item payloads
(`OrderCreate` admits no client total).  The invariant is preserved by
every mutating operation: field update, status transition, and
cancellation. -/
theorem C7_total_amount_invariant (db : Store) (data : OrderCreate)
    (user : UserRec) (newId : Nat) (now : Int) :
    totalInvariant (create_order db data user newId now).2 ∧
    (create_order db data user newId now).2.items
      = data.items.map mkOrderItem ∧
    (∀ oid patch u now2 db' o',
      update_order db oid patch u now2 = .ok (db', o') →
      (∀ x ∈ db, totalInvariant x) →
      totalInvariant o' ∧ ∀ x ∈ db', totalInvariant x) ∧
    (∀ oid ns notes u bypass now2 db' o',
      update_order_status db oid ns notes u bypass now2 = .ok (db', o') →
      (∀ x ∈ db, totalInvariant x) →
      totalInvariant o' ∧ ∀ x ∈ db', totalInvariant x) ∧
    (∀ oid u now2 db' o',
      cancel_order db oid u now2 = .ok (db', o') →
      (∀ x ∈ db, totalInvariant x) →
      totalInvariant o' ∧ ∀ x ∈ db', totalInvariant x) := by
  refine ⟨⟨?_, ?_⟩, rfl, ?_, ?_, ?_⟩
  · show ((data.items.map mkOrderItem).map OrderItem.total_price).sum
      = (((data.items.map mkOrderItem)).map
          (fun i => (i.quantity : ℚ) * i.unit_price)).sum
    rw [List.map_map, List.map_map]
    refine congrArg List.sum (List.map_congr_left ?_)
    intro d _
    simp [mkOrderItem, mul_comm]
  · intro i hi
    rcases List.mem_map.mp hi with ⟨d, _, rfl⟩
    simp [mkOrderItem, mul_comm]
  · intro oid patch u now2 db' o' hok hall
    obtain ⟨o, hget, hitems, htotal, hdb⟩ :=
      update_order_ok_shape db oid patch u now2 db' o' hok
    have ho' : totalInvariant o' :=
      totalInvariant_congr o o' hitems htotal
        (hall o (mem_of_get_order_ok db oid u o hget))
    refine ⟨ho', ?_⟩
    intro x hx
    rw [hdb] at hx
    rcases applyAt_const_mem db oid o' x hx with rfl | hmem
    · exact ho'
    · exact hall x hmem
  · intro oid ns notes u bypass now2 db' o' hok hall
    obtain ⟨o, hget, _, ho'e, hdb⟩ :=
      usos_ok_shape db oid ns notes u bypass now2 db' o' hok
    have ho' : totalInvariant o' := by
      subst ho'e
      exact totalInvariant_congr o _ (transitionCommit_items o ns notes now2)
        (transitionCommit_total o ns notes now2)
        (hall o (mem_of_get_order_ok db oid u o hget))
    refine ⟨ho', ?_⟩
    intro x hx
    rw [hdb] at hx
    rcases applyAt_const_mem db oid o' x hx with rfl | hmem
    · exact ho'
    · exact hall x hmem
  · intro oid u now2 db' o' hok hall
    obtain ⟨o, hfind, ho'e, hdb⟩ :=
      cancel_ok_shape db oid u now2 db' o' hok
    have ho' : totalInvariant o' := by
      subst ho'e
      exact totalInvariant_congr o _ rfl rfl
        (hall o (List.mem_of_find?_eq_some hfind))
    refine ⟨ho', ?_⟩
    intro x hx
    rw [hdb] at hx
    rcases applyAt_const_mem db oid o' x hx with rfl | hmem
    · exact ho'
    · exact hall x hmem

/-- Witness for `C7_total_amount_invariant`: two items, 2×3 + 1×5 = 11;
and the cancellation-preservation branch applied to a concrete one-row
store whose order is cancelled by an admin. -/
theorem C7_total_amount_invariant_witness :
    (create_order [] ⟨"Jane Doe", "jane@example.com", none, "1 Main St",
        none, [⟨"widget", none, 2, 3, none⟩, ⟨"gadget", none, 1, 5, none⟩]⟩
      ⟨7, UserRole.customer⟩ 1 0).2.total_amount = 11 ∧
    totalInvariant (create_order [] ⟨"Jane Doe", "jane@example.com", none,
        "1 Main St", none,
        [⟨"widget", none, 2, 3, none⟩, ⟨"gadget", none, 1, 5, none⟩]⟩
      ⟨7, UserRole.customer⟩ 1 0).2 ∧
    totalInvariant { mkOrder 1 7 OrderStatus.pending 0 with
      status := OrderStatus.cancelled
      notes := some (pyStrip (notesOrEmpty none ++
        "\n[CANCELLED] Order cancelled by " ++ UserRole.admin.value))
      updated_at := 5 } :=
  have h := C7_total_amount_invariant [] ⟨"Jane Doe", "jane@example.com",
    none, "1 Main St", none,
    [⟨"widget", none, 2, 3, none⟩, ⟨"gadget", none, 1, 5, none⟩]⟩
    ⟨7, UserRole.customer⟩ 1 0
  have h2 := C7_total_amount_invariant [mkOrder 1 7 OrderStatus.pending 0]
    ⟨"Jane Doe", "jane@example.com", none, "1 Main St", none, []⟩
    ⟨7, UserRole.customer⟩ 2 0
  have hall : ∀ x ∈ [mkOrder 1 7 OrderStatus.pending 0], totalInvariant x :=
    fun x hx => by
      rcases List.mem_singleton.mp hx with rfl
      exact ⟨rfl, fun i hi => absurd hi (List.not_mem_nil i)⟩
  have hc := h2.2.2.2.2 1 ⟨2, UserRole.admin⟩ 5 _ _ rfl hall
  ⟨by norm_num [create_order, mkOrderItem], h.1, hc.1⟩

/-- `dropWhile` cannot cross an appended block that contains an element
failing the predicate. -/
theorem dropWhile_append_of_mem_false {α : Type} (p : α → Bool)
    (a b : List α) (h : ∃ x ∈ a, p x = false) :
    (a ++ b).dropWhile p = a.dropWhile p ++ b := by
  induction a with
  | nil =>
    rcases h with ⟨x, hx, _⟩
    exact absurd hx (List.not_mem_nil x)
  | cons c t ih =>
    by_cases hc : p c = true
    · have ht : ∃ x ∈ t, p x = false := by
        rcases h with ⟨x, hx, hpx⟩
        rcases List.mem_cons.mp hx with rfl | hxt
        · rw [hc] at hpx; cases hpx
        · exact ⟨x, hxt, hpx⟩
      rw [List.cons_append, List.dropWhile_cons, List.dropWhile_cons,
        if_pos hc, if_pos hc, ih ht]
    · rw [Bool.not_eq_true] at hc
      rw [List.cons_append, List.dropWhile_cons, List.dropWhile_cons,
        hc]
      simp

/-- The stripped concatenation keeps the old block as a prefix, so long
as the old block does not begin with whitespace and the appended block
contains a non-whitespace character. -/
theorem pyStripList_keeps_left (l r : List Char)
    (hl : ∀ c, l.head? = some c → pyIsSpace c = false)
    (hr : ∃ x ∈ r, pyIsSpace x = false) :
    l <+: pyStripList (l ++ r) := by
  cases l with
  | nil => exact List.nil_prefix
  | cons c t =>
    have hc : pyIsSpace c = false := hl c rfl
    unfold pyStripList
    rw [List.cons_append, List.dropWhile_cons, hc]
    simp only [Bool.false_eq_true, if_false]
    rw [show (c :: (t ++ r)) = (c :: t) ++ r from rfl,
      List.reverse_append,
      dropWhile_append_of_mem_false pyIsSpace r.reverse (c :: t).reverse
        (by rcases hr with ⟨x, hx, hpx⟩
            exact ⟨x, List.mem_reverse.mpr hx, hpx⟩),
      List.reverse_append, List.reverse_reverse]
    exact ⟨(r.reverse.dropWhile pyIsSpace).reverse, rfl⟩

/-- The condition under which a stored notes value survives appends:
it is empty or starts with a non-whitespace character (client-supplied
notes may violate it, whereupon `str.strip()` eats the lead). -/
def hasNoLeadingSpace (s : String) : Prop :=
  ∀ c, s.data.head? = some c → pyIsSpace c = false

/-- C8 (amended): notes are append-only across the status-changing
operations — a successful `update_order_status` carrying notes, and a
successful `cancel_order`, both set the notes to the stripped
concatenation of the previous value and a status-tagged annotation, so
the previous value (when it does not itself begin with whitespace) is
preserved as a prefix.  `update_order`, by contrast, overwrites the
notes field with the patch value (see the counterexample), so the
append-only guarantee holds only for the two transition paths. -/
theorem C8_transition_notes_append_only :
    (∀ db oid ns n user bypass now db' o' o,
      update_order_status db oid ns (some n) user bypass now
        = .ok (db', o') →
      get_order_by_id db oid user = .ok (some o) →
      n ≠ "" →
      hasNoLeadingSpace (notesOrEmpty o.notes) →
      ∃ s, o'.notes = some s ∧
        (notesOrEmpty o.notes).data <+: s.data) ∧
    (∀ db oid user now db' o' o,
      cancel_order db oid user now = .ok (db', o') →
      findOrder db oid = some o →
      hasNoLeadingSpace (notesOrEmpty o.notes) →
      ∃ s, o'.notes = some s ∧
        (notesOrEmpty o.notes).data <+: s.data) := by
  constructor
  · intro db oid ns n user bypass now db' o' o hok hget hn hlead
    obtain ⟨o2, hget2, _, ho'e, _⟩ :=
      usos_ok_shape db oid ns (some n) user bypass now db' o' hok
    rw [hget] at hget2
    injection hget2 with h1
    injection h1 with h2
    subst h2
    subst ho'e
    refine ⟨pyStrip (notesOrEmpty o.notes ++ "\n[" ++ ns.value ++ "] " ++ n),
      ?_, ?_⟩
    · simp [transitionCommit, hn]
    · show (notesOrEmpty o.notes).data <+:
        (pyStrip (notesOrEmpty o.notes ++ "\n[" ++ ns.value ++ "] " ++ n)).data
      have hd : (notesOrEmpty o.notes ++ "\n[" ++ ns.value ++ "] " ++ n).data
          = (notesOrEmpty o.notes).data ++
            (("\n[" ++ ns.value ++ "] " ++ n).data) := by
        simp [String.data_append]
      show (notesOrEmpty o.notes).data <+:
        pyStripList (notesOrEmpty o.notes ++ "\n[" ++ ns.value ++ "] " ++ n).data
      rw [hd]
      refine pyStripList_keeps_left _ _ hlead ?_
      refine ⟨'[', ?_, by decide⟩
      simp [String.data_append]
  · intro db oid user now db' o' o hok hfind hlead
    obtain ⟨o2, hfind2, ho'e, _⟩ := cancel_ok_shape db oid user now db' o' hok
    rw [hfind] at hfind2
    injection hfind2 with h2
    subst h2
    subst ho'e
    refine ⟨pyStrip (notesOrEmpty o.notes ++
      "\n[CANCELLED] Order cancelled by " ++ user.role.value), rfl, ?_⟩
    show (notesOrEmpty o.notes).data <+:
      pyStripList (notesOrEmpty o.notes ++
        "\n[CANCELLED] Order cancelled by " ++ user.role.value).data
    have hd : (notesOrEmpty o.notes ++ "\n[CANCELLED] Order cancelled by "
          ++ user.role.value).data
        = (notesOrEmpty o.notes).data ++
          (("\n[CANCELLED] Order cancelled by " ++ user.role.value).data) := by
      simp [String.data_append]
    rw [hd]
    refine pyStripList_keeps_left _ _ hlead ?_
    refine ⟨'[', ?_, by decide⟩
    simp [String.data_append]

/-- Witness for `C8_transition_notes_append_only`: previous notes
`"old"` survive as a prefix through a vendor's `pending → processing`
transition with notes `"note"`, and through an admin cancellation. -/
theorem C8_transition_notes_append_only_witness :
    "old".data <+: (pyStrip ("old" ++ "\n[" ++ OrderStatus.processing.value
      ++ "] " ++ "note")).data ∧
    "old".data <+: (pyStrip ("old" ++ "\n[CANCELLED] Order cancelled by "
      ++ UserRole.admin.value)).data := by
  have h := C8_transition_notes_append_only
  have hlead : hasNoLeadingSpace (notesOrEmpty (some "old")) := by
    intro c hc
    injection hc with he
    subst he
    decide
  obtain ⟨s1, hs1, hp1⟩ := h.1
    [{ mkOrder 1 7 OrderStatus.pending 0 with notes := some "old" }] 1
    OrderStatus.processing "note" ⟨3, UserRole.vendor⟩ false 9 _ _
    ({ mkOrder 1 7 OrderStatus.pending 0 with notes := some "old" })
    rfl rfl (by decide) hlead
  obtain ⟨s2, hs2, hp2⟩ := h.2
    [{ mkOrder 1 7 OrderStatus.pending 0 with notes := some "old" }] 1
    ⟨2, UserRole.admin⟩ 9 _ _
    ({ mkOrder 1 7 OrderStatus.pending 0 with notes := some "old" })
    rfl rfl hlead
  have hs1' : some (pyStrip ("old" ++ "\n[" ++ OrderStatus.processing.value
      ++ "] " ++ "note")) = some s1 := hs1
  have hs2' : some (pyStrip ("old" ++ "\n[CANCELLED] Order cancelled by "
      ++ UserRole.admin.value)) = some s2 := hs2
  injection hs1' with he1
  injection hs2' with he2
  rw [← he1] at hp1
  rw [← he2] at hp2
  exact ⟨hp1, hp2⟩

/-- Looking up an id other than the mutated one is unaffected by an
id-preserving in-place mutation. -/
theorem findOrder_map_other (db : Store) (g : Order → Order) (x : Nat)
    (hid : ∀ o, (g o).id = o.id) (hfix : ∀ o, o.id = x → g o = o) :
    findOrder (List.map g db) x = findOrder db x := by
  induction db with
  | nil => rfl
  | cons a tl ih =>
    by_cases hax : a.id = x
    · rw [List.map_cons, findOrder, findOrder,
        List.find?_cons_of_pos _ (by simpa [hid] using hax),
        List.find?_cons_of_pos _ (by simpa using hax), hfix a hax]
    · rw [List.map_cons, findOrder, findOrder,
        List.find?_cons_of_neg _ (by simpa [hid] using hax),
        List.find?_cons_of_neg _ (by simpa using hax)]
      exact ih

/-- Id-preserving in-place mutation keeps every lookup answerable. -/
theorem findOrder_map_isSome (db : Store) (g : Order → Order) (x : Nat)
    (hid : ∀ o, (g o).id = o.id) :
    (findOrder (List.map g db) x).isSome = (findOrder db x).isSome := by
  induction db with
  | nil => rfl
  | cons a tl ih =>
    by_cases hax : a.id = x
    · rw [List.map_cons, findOrder, findOrder,
        List.find?_cons_of_pos _ (by simpa [hid] using hax),
        List.find?_cons_of_pos _ (by simpa using hax)]
      rfl
    · rw [List.map_cons, findOrder, findOrder,
        List.find?_cons_of_neg _ (by simpa [hid] using hax),
        List.find?_cons_of_neg _ (by simpa using hax)]
      exact ih

/-- On a store with unique ids, looking a member order up by its id
finds exactly it. -/
theorem findOrder_of_mem_nodup (db : Store) (o : Order)
    (hnd : (storeIds db).Nodup) (ho : o ∈ db) :
    findOrder db o.id = some o := by
  induction db with
  | nil => exact absurd ho (List.not_mem_nil o)
  | cons a tl ih =>
    have hnotin : a.id ∉ storeIds tl :=
      (List.nodup_cons.mp (by simpa [storeIds] using hnd)).1
    have hnd' : (storeIds tl).Nodup :=
      (List.nodup_cons.mp (by simpa [storeIds] using hnd)).2
    rcases List.mem_cons.mp ho with rfl | hmem
    · rw [findOrder, List.find?_cons_of_pos _ (by simp)]
    · by_cases hax : a.id = o.id
      · exact absurd (hax ▸ List.mem_map_of_mem Order.id hmem) hnotin
      · rw [findOrder, List.find?_cons_of_neg _ (by simpa using hax)]
        exact ih hnd' hmem


/-- The sweep loop on candidates that are all found pending (and pass
the age re-check) promotes every one of them and only them, returning
their count. -/
theorem sweepLoop_promotes_all (check : Order → Bool) (now : Int)
    (cs : List Nat) (s : Store) (hnd : cs.Nodup)
    (hc : ∀ c ∈ cs, ∃ o, findOrder s c = some o ∧
      o.status = OrderStatus.pending ∧ check o = true) :
    sweepLoop check now cs s =
      .ok (List.map (fun o => if o.id ∈ cs then promoteOrder now o else o) s,
        cs.length) := by
  induction cs generalizing s with
  | nil =>
    have hfun : (fun (o : Order) =>
        if o.id ∈ ([] : List Nat) then promoteOrder now o else o)
        = fun o => o := by
      funext o
      simp
    rw [sweepLoop, hfun, List.map_id']
    rfl
  | cons c cs ih =>
    obtain ⟨o, hfo, hpend, hchk⟩ := hc c (List.mem_cons_self c cs)
    have hcnotin : c ∉ cs := (List.nodup_cons.mp hnd).1
    have hnd' : cs.Nodup := (List.nodup_cons.mp hnd).2
    have hg : ∀ x : Order,
        ((fun o => if o.id = c then promoteOrder now o else o) x).id
          = x.id := by
      intro x
      by_cases hx : x.id = c <;> simp [hx, promoteOrder]
    have hc' : ∀ c' ∈ cs, ∃ o', findOrder (applyAt s c (promoteOrder now)) c'
        = some o' ∧ o'.status = OrderStatus.pending ∧ check o' = true := by
      intro c' hmem
      have hne : c' ≠ c := fun he => hcnotin (he ▸ hmem)
      rw [applyAt, findOrder_map_other s _ c' hg
        (fun x hx => if_neg (by rw [hx]; exact hne))]
      exact hc c' (List.mem_cons_of_mem c hmem)
    have hmap : List.map (fun o => if o.id ∈ cs then promoteOrder now o else o)
        (applyAt s c (promoteOrder now))
        = List.map (fun o => if o.id ∈ c :: cs then promoteOrder now o else o)
            s := by
      rw [applyAt, List.map_map]
      refine List.map_congr_left ?_
      intro x _
      by_cases hxc : x.id = c
      · have hpid : (promoteOrder now x).id = x.id := rfl
        simp [Function.comp, hxc, hpid, hcnotin]
      · simp [Function.comp, hxc, List.mem_cons]
    simp only [sweepLoop, hfo]
    rw [if_neg (by simp [hpend]), if_neg (by simp [hchk]),
      ih (applyAt s c (promoteOrder now)) hnd' hc', hmap]
    rfl

/-- The sweep loop finishes without error whenever every candidate id
is still present, and it never touches an order whose re-read status
has left `pending`: such a candidate is skipped silently and its record
survives the pass unchanged. -/
theorem sweepLoop_preserves_non_pending (check : Order → Bool) (now : Int)
    (cs : List Nat) (s : Store)
    (hsome : ∀ c ∈ cs, (findOrder s c).isSome = true) :
    ∃ s' n, sweepLoop check now cs s = .ok (s', n) ∧
      ∀ x o, findOrder s x = some o → o.status ≠ OrderStatus.pending →
        findOrder s' x = some o := by
  induction cs generalizing s with
  | nil => exact ⟨s, 0, rfl, fun x o h _ => h⟩
  | cons c cs ih =>
    obtain ⟨o, hfo⟩ := Option.isSome_iff_exists.mp
      (hsome c (List.mem_cons_self c cs))
    have hsome' : ∀ c' ∈ cs, (findOrder s c').isSome = true :=
      fun c' h' => hsome c' (List.mem_cons_of_mem c h')
    by_cases hp : o.status = OrderStatus.pending
    · by_cases hchk : check o = true
      · -- promotion branch
        have hg : ∀ x : Order,
            ((fun y => if y.id = c then promoteOrder now y else y) x).id
              = x.id := by
          intro x
          by_cases hx : x.id = c <;> simp [hx, promoteOrder]
        have hsome1 : ∀ c' ∈ cs,
            (findOrder (applyAt s c (promoteOrder now)) c').isSome = true := by
          intro c' h'
          rw [applyAt, findOrder_map_isSome s _ c' hg]
          exact hsome' c' h'
        obtain ⟨s', n, hrun, hpres⟩ := ih (applyAt s c (promoteOrder now))
          hsome1
        refine ⟨s', n + 1, ?_, ?_⟩
        · simp only [sweepLoop, hfo]
          rw [if_neg (by simp [hp]), if_neg (by simp [hchk]), hrun]
        · intro x o2 hx hnp
          have hxc : x ≠ c := by
            intro he
            rw [he, hfo] at hx
            injection hx with hx2
            exact hnp (hx2 ▸ hp)
          have hx1 : findOrder (applyAt s c (promoteOrder now)) x = some o2 := by
            rw [applyAt, findOrder_map_other s _ x hg
              (fun y hy => if_neg (by rw [hy]; exact hxc.symm ∘ Eq.symm))]
            exact hx
          exact hpres x o2 hx1 hnp
      · -- skipped by the age re-check
        obtain ⟨s', n, hrun, hpres⟩ := ih s hsome'
        refine ⟨s', n, ?_, hpres⟩
        simp only [sweepLoop, hfo]
        rw [if_neg (by simp [hp]), if_pos (by simp [hchk]), hrun]
    · -- skipped silently: status no longer pending
      obtain ⟨s', n, hrun, hpres⟩ := ih s hsome'
      refine ⟨s', n, ?_, hpres⟩
      simp only [sweepLoop, hfo]
      rw [if_pos hp, hrun]

/-- C5 (amended): the manual sweep, run sequentially on a store with
unique ids (the batch snapshot and the mutation state coincide),
promotes to `processing` exactly those orders that are pending with
`created_at ≤ now − 300 s` — i.e. at LEAST five minutes old, the
boundary age of exactly 300 s included (see the counterexample) —
stamping their `updated_at` with the loop-time clock reading, leaves
every other order completely unchanged, and returns the number of
orders promoted. -/
theorem C5_run_once_spec (db : Store) (now1 now2 : Int)
    (hnd : (storeIds db).Nodup) :
    update_all_pending_orders_now db db now1 now2 =
      .ok (db.map (fun o =>
          if o.status = OrderStatus.pending ∧ o.created_at ≤ now1 - 300
          then promoteOrder now2 o else o),
        (db.filter (fun o => decide (o.status = OrderStatus.pending ∧
          o.created_at ≤ now1 - 300))).length) := by
  have hsub : List.Sublist (pendingBatch db (now1 - 300)) (storeIds db) := by
    unfold pendingBatch storeIds
    exact (List.filter_sublist db).map Order.id
  have hcsnd : (pendingBatch db (now1 - 300)).Nodup := hnd.sublist hsub
  have hc : ∀ c ∈ pendingBatch db (now1 - 300), ∃ o, findOrder db c = some o ∧
      o.status = OrderStatus.pending ∧ (fun _ => true) o = true := by
    intro c hcmem
    unfold pendingBatch at hcmem
    rcases List.mem_map.mp hcmem with ⟨o, hof, rfl⟩
    have hm := List.mem_filter.mp hof
    refine ⟨o, findOrder_of_mem_nodup db o hnd hm.1, ?_, rfl⟩
    exact (of_decide_eq_true hm.2).1
  have hrun := sweepLoop_promotes_all (fun _ => true) now2
    (pendingBatch db (now1 - 300)) db hcsnd hc
  unfold update_all_pending_orders_now
  rw [hrun]
  have hmem : ∀ o ∈ db, (o.id ∈ pendingBatch db (now1 - 300)) ↔
      (o.status = OrderStatus.pending ∧ o.created_at ≤ now1 - 300) := by
    intro o ho
    constructor
    · intro hin
      unfold pendingBatch at hin
      rcases List.mem_map.mp hin with ⟨o2, ho2f, hid⟩
      have hm2 := List.mem_filter.mp ho2f
      have : o2 = o := List.inj_on_of_nodup_map hnd hm2.1 ho hid
      exact this ▸ of_decide_eq_true hm2.2
    · intro hcond
      unfold pendingBatch
      exact List.mem_map_of_mem Order.id
        (List.mem_filter.mpr ⟨ho, decide_eq_true hcond⟩)
  have hmap : List.map (fun o =>
      if o.id ∈ pendingBatch db (now1 - 300) then promoteOrder now2 o else o)
        db
      = db.map (fun o =>
          if o.status = OrderStatus.pending ∧ o.created_at ≤ now1 - 300
          then promoteOrder now2 o else o) := by
    refine List.map_congr_left ?_
    intro o ho
    by_cases hin : o.id ∈ pendingBatch db (now1 - 300)
    · rw [if_pos hin, if_pos ((hmem o ho).mp hin)]
    · rw [if_neg hin, if_neg (fun hcond => hin ((hmem o ho).mpr hcond))]
  have hlen : (pendingBatch db (now1 - 300)).length
      = (db.filter (fun o => decide (o.status = OrderStatus.pending ∧
          o.created_at ≤ now1 - 300))).length := by
    unfold pendingBatch
    rw [List.length_map]
  rw [hmap, hlen]

/-- Witness for `C5_run_once_spec`: the spec's quoted scenario — 3
eligible pending orders and 2 ineligible ones (one too young, one
already processing) — returns 3 with the 2 untouched. -/
theorem C5_run_once_spec_witness :
    update_all_pending_orders_now
      [mkOrder 1 7 OrderStatus.pending 0, mkOrder 2 7 OrderStatus.pending 10,
       mkOrder 3 8 OrderStatus.pending 20, mkOrder 4 7 OrderStatus.pending 900,
       mkOrder 5 8 OrderStatus.processing 0]
      [mkOrder 1 7 OrderStatus.pending 0, mkOrder 2 7 OrderStatus.pending 10,
       mkOrder 3 8 OrderStatus.pending 20, mkOrder 4 7 OrderStatus.pending 900,
       mkOrder 5 8 OrderStatus.processing 0] 1000 1000 =
      .ok ([promoteOrder 1000 (mkOrder 1 7 OrderStatus.pending 0),
            promoteOrder 1000 (mkOrder 2 7 OrderStatus.pending 10),
            promoteOrder 1000 (mkOrder 3 8 OrderStatus.pending 20),
            mkOrder 4 7 OrderStatus.pending 900,
            mkOrder 5 8 OrderStatus.processing 0], 3) :=
  (C5_run_once_spec
    [mkOrder 1 7 OrderStatus.pending 0, mkOrder 2 7 OrderStatus.pending 10,
     mkOrder 3 8 OrderStatus.pending 20, mkOrder 4 7 OrderStatus.pending 900,
     mkOrder 5 8 OrderStatus.processing 0] 1000 1000 (by decide)).trans
    (by rfl)

/-- C6: the promotion worker never overwrites a concurrent user
transition.  `snap` is the store state the batch query saw, `cur` the
state at mutation time (after any interleaved user writes).  Provided
every batch candidate is still present (`db.refresh` succeeds), both
the periodic pass and the manual trigger re-read each candidate by id
from `cur` and skip it silently when its re-read status has left
`pending`; in particular an order cancelled between the batch query and
the re-read ends either pass still cancelled, with its whole record
untouched, and the pass completes without error. -/
theorem C6_sweep_skips_cancelled (snap cur : Store)
    (now now1 now2 : Int) (x : Nat) (o : Order)
    (hfo : findOrder cur x = some o)
    (hst : o.status = OrderStatus.cancelled)
    (h1 : ∀ c ∈ pendingBatch snap (now - 300),
      (findOrder cur c).isSome = true)
    (h2 : ∀ c ∈ pendingBatch snap (now1 - 300),
      (findOrder cur c).isSome = true) :
    findOrder (process_pending_orders snap cur now).1 x = some o ∧
    ∃ s' n, update_all_pending_orders_now snap cur now1 now2 = .ok (s', n) ∧
      findOrder s' x = some o := by
  have hnp : o.status ≠ OrderStatus.pending := by
    rw [hst]
    intro h
    cases h
  constructor
  · obtain ⟨s', n, hrun, hpres⟩ := sweepLoop_preserves_non_pending
      (fun o => decide (now - o.created_at > 300)) now
      (pendingBatch snap (now - 300)) cur h1
    simp only [process_pending_orders]
    rw [hrun]
    exact hpres x o hfo hnp
  · obtain ⟨s', n, hrun, hpres⟩ := sweepLoop_preserves_non_pending
      (fun _ => true) now2 (pendingBatch snap (now1 - 300)) cur h2
    exact ⟨s', n, hrun, hpres x o hfo hnp⟩

/-- Witness for `C6_sweep_skips_cancelled`: a pending order is caught
by the batch query (snapshot), then cancelled before the re-read; both
passes leave it cancelled and return without error (the manual pass
promotes nothing). -/
theorem C6_sweep_skips_cancelled_witness :
    findOrder (process_pending_orders [mkOrder 1 7 OrderStatus.pending 0]
        [mkOrder 1 7 OrderStatus.cancelled 0] 1000).1 1
      = some (mkOrder 1 7 OrderStatus.cancelled 0) ∧
    update_all_pending_orders_now [mkOrder 1 7 OrderStatus.pending 0]
        [mkOrder 1 7 OrderStatus.cancelled 0] 1000 1000 =
      .ok ([mkOrder 1 7 OrderStatus.cancelled 0], 0) :=
  have h := C6_sweep_skips_cancelled [mkOrder 1 7 OrderStatus.pending 0]
    [mkOrder 1 7 OrderStatus.cancelled 0] 1000 1000 1000 1
    (mkOrder 1 7 OrderStatus.cancelled 0) rfl rfl
    (by decide) (by decide)
  ⟨h.1, rfl⟩
